import Mathlib

/-!
Shallow embedding of the upscaling pipeline of `flora_esrgan/upscale.py`
(class `Upscale`), together with theorems checking the natural-language
specification against it.

Conventions of the embedding:
* An image (a numpy `ndarray` of shape `h × w × c`) is a structure holding
  its dimensions and a pixel function; samples are rationals (the Python
  code works on floating-point arrays, but every operation the claims
  concern — products, affine maps, comparisons, clipping, rounding — is
  exact arithmetic, which `ℚ` models faithfully).
* The super-resolution network (`self.model`) is an opaque function
  `Img → Img`, matching the spec's "opaque model capability".
* Stateful Python code becomes explicit data flow; the logger becomes an
  explicit list of emitted warning strings.
-/

/-- An image buffer: `h × w` pixels with `c` channels of rational samples,
modelling a numpy `ndarray` of shape `(h, w, c)`. Reads outside the channel
range are conventionally `0` in every constructor below, mirroring the fact
that a numpy slice of `c` channels has no further channels to read. -/
structure Img where
  h : Nat
  w : Nat
  c : Nat
  pix : Nat → Nat → Nat → ℚ

/-- Clamp a sample to `[0, 1]`; models `torch.clamp_(0, 1)` and `np.clip(·, 0, 1)`. -/
def clamp01 (x : ℚ) : ℚ := max 0 (min 1 x)

/-- numpy's `round` (round half to even), applied to one sample:
models `(output * 255.0).round()` at upscale.py line 352. -/
def npRound (x : ℚ) : ℚ :=
  let f : ℤ := Int.floor x
  if x - f < 1/2 then (f : ℚ)
  else if 1/2 < x - f then ((f + 1 : ℤ) : ℚ)
  else if f % 2 = 0 then (f : ℚ) else ((f + 1 : ℤ) : ℚ)

theorem npRound_intCast (z : ℤ) : npRound (z : ℚ) = (z : ℚ) := by
  have hf : Int.floor ((z : ℚ)) = z := Int.floor_intCast z
  simp only [npRound, hf]
  norm_num

theorem npRound_zero : npRound 0 = 0 := by
  have h := npRound_intCast 0
  simpa using h

theorem npRound_255 : npRound 255 = 255 := by
  have h := npRound_intCast 255
  simpa using h

theorem npRound_half255 : npRound ((1/2 : ℚ) * 255) = 128 := by
  have hx : ((1:ℚ)/2) * 255 = 255/2 := by norm_num
  have hf : Int.floor ((255 : ℚ)/2) = 127 := by
    rw [Int.floor_eq_iff]
    norm_num
  rw [hx]
  simp only [npRound, hf]
  norm_num

/-- Normalization `img * 1.0 / np.iinfo(img.dtype).max` (upscale.py line 264);
`dmax` is the dtype maximum (255 for the uint8 arrays `run()` supplies). -/
def normalizeImg (dmax : ℚ) (img : Img) : Img :=
  { img with pix := fun i j ch => img.pix i j ch / dmax }

/-- Rescaling `(output * 255.0).round()` (upscale.py line 352). -/
def rescale255 (img : Img) : Img :=
  { img with pix := fun i j ch => npRound (img.pix i j ch * 255) }

/-- Pointwise clamp of a whole image to `[0,1]`. -/
def clampImg01 (img : Img) : Img :=
  { img with pix := fun i j ch => clamp01 (img.pix i j ch) }

/-- The BGR↔RGB channel swizzle of `Upscale.process` (upscale.py lines
177-180 and 188-191): for 3- or 4-channel images channels 0 and 2 are
swapped (channel 3, alpha, kept); other channel counts pass unchanged. -/
def swizzle (img : Img) : Img :=
  if img.c = 3 ∨ img.c = 4 then
    { img with pix := fun i j ch =>
        if ch = 0 then img.pix i j 2
        else if ch = 2 then img.pix i j 0
        else img.pix i j ch }
  else img

/-- `Upscale.process` (upscale.py lines 167-193): swizzle the input to BGR
order of the network, run the opaque model, clamp its output to `[0,1]`
(`clamp_(0,1)`, line 187), swizzle back. The HWC↔CHW transposes and the
batch `unsqueeze`/`squeeze` cancel and are not represented; `.float()`
and device moves are precision/placement details with no arithmetic
content in this model. -/
def process (model : Img → Img) (img : Img) : Img :=
  swizzle (clampImg01 (model (swizzle img)))

theorem swizzle_c (img : Img) : (swizzle img).c = img.c := by
  unfold swizzle
  split
  · rfl
  · rfl

theorem process_c (model : Img → Img) (img : Img) :
    (process model img).c = (model (swizzle img)).c := by
  unfold process
  rw [swizzle_c]
  rfl

/-- The `AlphaOptions` enumeration (upscale.py lines 33-37). -/
inductive AlphaOptions where
  | NO_ALPHA
  | BG_DIFFERENCE
  | ALPHA_SEPARATELY
  | SWAPPING
deriving DecidableEq

/-- The `SeamlessOptions` enumeration (upscale.py lines 26-30). -/
inductive SeamlessOptions where
  | TILE
  | MIRROR
  | REPLICATE
  | ALPHA_PAD
deriving DecidableEq

/-- The configuration fields of the `Upscale` class that the upscaling
pipeline reads (upscale.py lines 67-99); `last_in_nc`/`last_out_nc` are
the loaded model's channel expectation recorded by `load_model`. -/
structure UpscaleConfig where
  binary_alpha : Bool
  ternary_alpha : Bool
  alpha_threshold : ℚ
  alpha_boundary_offset : ℚ
  alpha_mode : Option AlphaOptions
  last_in_nc : Nat
  last_out_nc : Nat
  cache_max_split_depth : Bool

/-- Slicing to the first `n` channels, `img[:, :, :n]` (upscale.py lines
275, 288, 316, 346). -/
def truncateChannels (n : Nat) (img : Img) : Img :=
  ⟨img.h, img.w, n, fun i j ch => if ch < n then img.pix i j ch else 0⟩

/-- The black-background composite of the `bg_difference` strategy
(upscale.py lines 275, 278): `img1 = img[:, :, :3]` then
`img1[:, :, c] *= img[:, :, 3]` for each color channel. -/
def blackComposite (img : Img) : Img :=
  ⟨img.h, img.w, 3, fun i j ch =>
    if ch < 3 then img.pix i j ch * img.pix i j 3 else 0⟩

/-- The white-background composite of the `bg_difference` strategy
(upscale.py lines 276, 279): `img2[:, :, c] = (img2[:, :, c] - 1) * img[:, :, 3] + 1`. -/
def whiteComposite (img : Img) : Img :=
  ⟨img.h, img.w, 3, fun i j ch =>
    if ch < 3 then (img.pix i j ch - 1) * img.pix i j 3 + 1 else 0⟩

/-- Elementwise difference `a - b` of two equally-shaped arrays
(`output2 - output1`, upscale.py line 283). -/
def imgSub (a b : Img) : Img :=
  ⟨a.h, a.w, a.c, fun i j ch => a.pix i j ch - b.pix i j ch⟩

/-- `np.mean(d, axis=2)` at one pixel: the mean of the samples over the
channel axis (upscale.py line 283). -/
def meanChannels (d : Img) (i j : Nat) : ℚ :=
  (((List.range d.c).map (fun ch => d.pix i j ch)).sum) / (d.c : ℚ)

/-- `np.dstack((a, alpha))` (upscale.py line 284): append one channel
holding `alpha` after the channels of `a`. -/
def dstackAlpha (a : Img) (alpha : Nat → Nat → ℚ) : Img :=
  ⟨a.h, a.w, a.c + 1, fun i j ch =>
    if ch < a.c then a.pix i j ch
    else if ch = a.c then alpha i j else 0⟩

/-- `cv2.merge` of three single-channel planes (upscale.py lines 289,
302, 303). -/
def merge3 (h w : Nat) (p0 p1 p2 : Nat → Nat → ℚ) : Img :=
  ⟨h, w, 3, fun i j ch =>
    if ch = 0 then p0 i j
    else if ch = 1 then p1 i j
    else if ch = 2 then p2 i j else 0⟩

/-- `cv2.merge` of four single-channel planes (upscale.py lines 292-299,
306-313). -/
def merge4 (h w : Nat) (p0 p1 p2 p3 : Nat → Nat → ℚ) : Img :=
  ⟨h, w, 4, fun i j ch =>
    if ch = 0 then p0 i j
    else if ch = 1 then p1 i j
    else if ch = 2 then p2 i j
    else if ch = 3 then p3 i j else 0⟩

/-- One channel plane of an image, `img[:, :, ch]`. -/
def plane (img : Img) (ch : Nat) : Nat → Nat → ℚ := fun i j => img.pix i j ch

/-- `cv2.cvtColor(output, cv2.COLOR_BGR2BGRA)` (upscale.py line 318):
append an alpha channel at the maximum value of the sample type, which is
`1.0` for the floating-point arrays used here. -/
def bgr2bgra (img : Img) : Img :=
  ⟨img.h, img.w, 4, fun i j ch =>
    if ch < 3 then img.pix i j ch
    else if ch = 3 then 1 else 0⟩

/-- `np.dstack((img, np.full(img.shape[:-1], 1.0)))` (upscale.py line 349):
pad a 3-channel image with a solid alpha channel. -/
def addOpaqueAlpha (img : Img) : Img :=
  ⟨img.h, img.w, img.c + 1, fun i j ch =>
    if ch < img.c then img.pix i j ch
    else if ch = img.c then 1 else 0⟩

/-- `cv2.threshold(·, thresh, maxval, cv2.THRESH_BINARY)` applied to one
sample (upscale.py line 323). OpenCV's THRESH_BINARY rule is
`dst = maxval if src > thresh else 0` — the comparison is strict. -/
def cv2threshBinary (thresh maxval a : ℚ) : ℚ :=
  if a > thresh then maxval else 0

/-- Writing a transformed alpha plane back into channel 3,
`output[:, :, 3] = alpha` (upscale.py lines 324, 338). -/
def setAlphaChannel (f : ℚ → ℚ) (img : Img) : Img :=
  { img with pix := fun i j ch =>
      if ch = 3 then f (img.pix i j 3) else img.pix i j ch }

/-- The alpha-strategy dispatch of `Upscale.upscale` for a 4-channel image
on a 3-in/3-out model (upscale.py lines 274-318), selected by
`self.alpha_mode`. The final catch-all arm is Python's `else` at line 315,
reached both for `AlphaOptions.NO_ALPHA` and for an unset alpha mode. -/
def alphaStrategy (mode : Option AlphaOptions) (model : Img → Img)
    (img : Img) : Img :=
  match mode with
  | some AlphaOptions.BG_DIFFERENCE =>
      let output1 := process model (blackComposite img)
      let output2 := process model (whiteComposite img)
      clampImg01 (dstackAlpha output1
        (fun i j => 1 - meanChannels (imgSub output2 output1) i j))
  | some AlphaOptions.ALPHA_SEPARATELY =>
      let output1 := process model (truncateChannels 3 img)
      let output2 := process model
        (merge3 img.h img.w (plane img 3) (plane img 3) (plane img 3))
      merge4 output1.h output1.w
        (plane output1 0) (plane output1 1) (plane output1 2) (plane output2 0)
  | some AlphaOptions.SWAPPING =>
      let output1 := process model
        (merge3 img.h img.w (plane img 0) (plane img 1) (plane img 2))
      let output2 := process model
        (merge3 img.h img.w (plane img 1) (plane img 2) (plane img 3))
      merge4 output1.h output1.w
        (plane output1 0) (plane output1 1) (plane output1 2) (plane output2 2)
  | _ => bgr2bgra (process model (truncateChannels 3 img))

/-- The optional alpha quantization step of `Upscale.upscale` (upscale.py
lines 320-338): `if self.binary_alpha: ... elif self.ternary_alpha: ...`.
The binary branch is `cv2.threshold(alpha, threshold, 1, THRESH_BINARY)`;
the ternary branch is the nested `np.where` of lines 333-337. -/
def quantizeAlphaStep (binary ternary : Bool) (threshold offset : ℚ)
    (output : Img) : Img :=
  if binary then
    setAlphaChannel (cv2threshBinary threshold 1) output
  else if ternary then
    setAlphaChannel (fun a =>
      if a < threshold - offset then 0
      else if a ≤ threshold + offset then 1/2 else 1) output
  else output

/-- `Upscale.upscale` (upscale.py lines 252-354): normalize by the dtype
maximum, dispatch on the 4-channel/3-in/3-out alpha condition (line 266),
otherwise adapt channels (truncate with a warning, or pad an opaque alpha)
and run the model once, and finally rescale to `[0,255]` and round.
The second component collects the warnings emitted through `self.log`.
The `img.ndim == 2` tiling branch (lines 340-343) concerns 2-d arrays,
which this 3-d representation excludes; `run()` always supplies 3-d
arrays (it converts grayscale input at lines 116-117). -/
def Upscale.upscale (cfg : UpscaleConfig) (model : Img → Img) (dmax : ℚ)
    (img0 : Img) : Img × List String :=
  let img := normalizeImg dmax img0
  if img.c = 4 ∧ cfg.last_in_nc = 3 ∧ cfg.last_out_nc = 3 then
    (rescale255 (quantizeAlphaStep cfg.binary_alpha cfg.ternary_alpha
      cfg.alpha_threshold cfg.alpha_boundary_offset
      (alphaStrategy cfg.alpha_mode model img)), [])
  else if img.c > cfg.last_in_nc then
    (rescale255 (process model (truncateChannels cfg.last_in_nc img)),
      ["Truncating image channels"])
  else if img.c = 3 ∧ cfg.last_in_nc = 4 then
    (rescale255 (process model (addOpaqueAlpha img)), [])
  else
    (rescale255 (process model img), [])

/-- The validation performed by `Upscale.__init__` (upscale.py lines
67-103): the constructor only assigns the configuration fields and loads
the model; it contains no checks and no `raise` statement, so every
configuration — including one with both `binary_alpha` and
`ternary_alpha` set — is accepted unchanged. -/
def Upscale.initValidation (cfg : UpscaleConfig) : Except String UpscaleConfig :=
  Except.ok cfg

/-- A border extrapolation mode of `cv2.copyMakeBorder`, restricted to the
modes `Upscale.run` uses (upscale.py lines 120-131). -/
inductive BorderType where
  | WRAP
  | REFLECT_101
  | REPLICATE
  | CONSTANT
deriving DecidableEq

/-- OpenCV's `borderInterpolate(p, len, borderType)` in closed form: map a
possibly out-of-range coordinate `p` to a source coordinate in `[0, len)`.
WRAP normalizes modulo `len`; REFLECT_101 is the triangle wave of period
`2*(len-1)` that mirrors without duplicating the edge pixel (with OpenCV's
special case returning 0 when `len == 1`); REPLICATE clamps to the edge.
For CONSTANT OpenCV returns -1 (the caller fills with the constant
instead); `copyMakeBorder` below never consults this value for CONSTANT. -/
def borderIndex (p : Int) (len : Nat) (bt : BorderType) : Int :=
  match bt with
  | BorderType.WRAP => p % (len : Int)
  | BorderType.REFLECT_101 =>
      if len = 1 then 0
      else
        let m : Int := 2 * ((len : Int) - 1)
        let q := p % m
        if q < (len : Int) then q else m - q
  | BorderType.REPLICATE => max 0 (min p ((len : Int) - 1))
  | BorderType.CONSTANT => -1

/-- `cv2.copyMakeBorder(img, pad, pad, pad, pad, bt, value)` (upscale.py
lines 120-131): extend the image by `pad` pixels on each side, filling the
border by the extrapolation mode (or by the constant `value` for
CONSTANT). -/
def copyMakeBorder (img : Img) (pad : Nat) (bt : BorderType) (value : ℚ) : Img :=
  ⟨img.h + 2 * pad, img.w + 2 * pad, img.c, fun i j ch =>
    match bt with
    | BorderType.CONSTANT =>
        if pad ≤ i ∧ i < pad + img.h ∧ pad ≤ j ∧ j < pad + img.w then
          img.pix (i - pad) (j - pad) ch
        else value
    | _ =>
        img.pix (borderIndex ((i : Int) - (pad : Int)) img.h bt).toNat
                (borderIndex ((j : Int) - (pad : Int)) img.w bt).toNat ch⟩

/-- The seamless pre-pass of `Upscale.run` (upscale.py lines 119-131): a
16-pixel border in the mode selected by `self.seamless`; `alpha_pad` uses
a constant fully transparent border (`value=[0, 0, 0, 0]`). -/
def padSeamless (mode : SeamlessOptions) (img : Img) : Img :=
  match mode with
  | SeamlessOptions.TILE => copyMakeBorder img 16 BorderType.WRAP 0
  | SeamlessOptions.MIRROR => copyMakeBorder img 16 BorderType.REFLECT_101 0
  | SeamlessOptions.REPLICATE => copyMakeBorder img 16 BorderType.REPLICATE 0
  | SeamlessOptions.ALPHA_PAD => copyMakeBorder img 16 BorderType.CONSTANT 0

/-- `Upscale.crop_seamless` (upscale.py lines 356-361):
`img[16*scale : 16*scale + (H - 32*scale), 16*scale : 16*scale + (W - 32*scale)]`. -/
def Upscale.crop_seamless (img : Img) (scale : Nat) : Img :=
  ⟨img.h - 32 * scale, img.w - 32 * scale, img.c, fun i j ch =>
    img.pix (16 * scale + i) (16 * scale + j) ch⟩

/-- The split-depth cache handling of one `Upscale.run` call (upscale.py
lines 105-149). `split_depths` is a local dictionary created empty at
line 109 on every call; the class stores no corresponding attribute, so
nothing of it survives the call. `splitter` models
`ops.auto_split_upscale`, taking the optional `max_depth` argument and
returning the upscaled image together with the depth used. The function
returns the `max_depth` hint that was passed to the splitter (line 141
when the cache branch is taken, absent otherwise) and the depth the call
recorded into `split_depths[0]` (line 147). -/
def Upscale.runSplitHint (cache_max_split_depth : Bool)
    (splitter : Option Nat → Img × Nat) : Option Nat × Nat :=
  let split_depths : List (Nat × Nat) := []
  if cache_max_split_depth = true ∧ 0 < split_depths.length then
    let hint := ((split_depths.lookup 0).getD 0)
    (some hint, (splitter (some hint)).2)
  else
    (none, (splitter none).2)

/-- Two successive `Upscale.run` calls on the same orchestrator, observed
through the `max_depth` hints they pass and the depths they record.
`run` mutates no attribute consulted by the split-depth logic (its local
`split_depths` dictionary is discarded on return), so the second call is
the same computation as the first. -/
def Upscale.runTwice (cache_max_split_depth : Bool)
    (splitter : Option Nat → Img × Nat) : (Option Nat × Nat) × (Option Nat × Nat) :=
  (Upscale.runSplitHint cache_max_split_depth splitter,
   Upscale.runSplitHint cache_max_split_depth splitter)

/-! ### Concrete test fixtures used by witnesses and counterexamples -/

/-- A concrete opaque model: it returns a 3-channel image with every
sample `1/2`, a legitimate instance of the model collaborator contract
(3 output channels, values in `[0,1]`). -/
def constHalfModel : Img → Img := fun x => ⟨x.h, x.w, 3, fun _ _ _ => 1/2⟩

/-- A concrete 1×1 RGBA uint8-style image with every sample at 255. -/
def rgba255 : Img := ⟨1, 1, 4, fun _ _ _ => 255⟩

/-- A concrete 2×2 RGB image with pairwise distinct samples. -/
def rgbGrid : Img := ⟨2, 2, 3, fun i j ch => (i : ℚ) * 9 + (j : ℚ) * 3 + (ch : ℚ)⟩

/-! ### C1: split-depth cache reuse across run() calls -/

/-- C1 counterexample. With `cache_max_split_depth = true` and a splitter
that reports depth 2, the first `run()` records depth 2, yet the second
`run()` still passes no `max_depth` hint to the splitter: the claim's
predicted hint `some 2` is not what the code passes, because
`split_depths` is a local variable of `run()` (upscale.py line 109) and
is empty again when line 136 tests it. -/
theorem C1_counterexample :
    (Upscale.runTwice true (fun _ => (⟨1, 1, 3, fun _ _ _ => 0⟩, 2))).1.2 = 2 ∧
    (Upscale.runTwice true (fun _ => (⟨1, 1, 3, fun _ _ _ => 0⟩, 2))).2.1 = none ∧
    (Upscale.runTwice true (fun _ => (⟨1, 1, 3, fun _ _ _ => 0⟩, 2))).2.1 ≠ some 2 := by
  refine ⟨rfl, rfl, ?_⟩
  intro h
  simp [Upscale.runTwice, Upscale.runSplitHint] at h

/-- C1 amended: the split-depth dictionary is created empty at every
`run()` invocation, the single splitter call of a run records its depth
into it, and the recorded depth is discarded when `run()` returns — so
every call, first or later, invokes the splitter without a `max_depth`
hint, whatever the `cache_max_split_depth` flag. -/
theorem C1_amended_no_hint (cache : Bool) (splitter : Option Nat → Img × Nat) :
    (Upscale.runSplitHint cache splitter).1 = none ∧
    (Upscale.runTwice cache splitter).1.1 = none ∧
    (Upscale.runTwice cache splitter).2.1 = none := by
  unfold Upscale.runTwice Upscale.runSplitHint
  simp

/-! ### C2: no ConfigurationError for binary_alpha together with ternary_alpha -/

/-- C2 counterexample. A configuration requesting both `binary_alpha` and
`ternary_alpha` is accepted by the constructor (upscale.py lines 67-103
assign fields and contain no validation or raise), and the run proceeds
to invoke the model: the upscaled output's red sample is the model's
value `1/2` rescaled to 128, so inference did begin. -/
theorem C2_counterexample :
    Upscale.initValidation
        ⟨true, true, 1/2, 1/5, some AlphaOptions.NO_ALPHA, 3, 3, false⟩ =
      Except.ok ⟨true, true, 1/2, 1/5, some AlphaOptions.NO_ALPHA, 3, 3, false⟩ ∧
    (Upscale.upscale ⟨true, true, 1/2, 1/5, some AlphaOptions.NO_ALPHA, 3, 3, false⟩
        constHalfModel 255 rgba255).1.pix 0 0 0 = 128 := by
  refine ⟨rfl, ?_⟩
  have : (Upscale.upscale ⟨true, true, 1/2, 1/5, some AlphaOptions.NO_ALPHA, 3, 3, false⟩
      constHalfModel 255 rgba255).1.pix 0 0 0 = npRound ((1/2 : ℚ) * 255) := by
    simp [Upscale.upscale, normalizeImg, alphaStrategy, process, swizzle,
      clampImg01, bgr2bgra, quantizeAlphaStep, setAlphaChannel, rescale255,
      truncateChannels, clamp01, constHalfModel, rgba255, cv2threshBinary]
    norm_num
  rw [this, npRound_half255]

/-- C2 amended: requesting `binary_alpha` and `ternary_alpha` together
raises no error — the constructor performs no validation and accepts the
configuration unchanged, and the run proceeds identically to a run with
only `binary_alpha` set (binary takes precedence, ternary is ignored). -/
theorem C2_amended_accepts (cfg : UpscaleConfig) (model : Img → Img)
    (dmax : ℚ) (img : Img)
    (hb : cfg.binary_alpha = true) (ht : cfg.ternary_alpha = true) :
    Upscale.initValidation cfg = Except.ok cfg ∧
    Upscale.upscale cfg model dmax img =
      Upscale.upscale { cfg with ternary_alpha := false } model dmax img := by
  refine ⟨rfl, ?_⟩
  obtain ⟨b, t, th, o, am, inc, onc, cm⟩ := cfg
  simp only at hb ht
  subst hb
  subst ht
  rfl

/-- C2 witness: the amended theorem applied at a concrete both-flags
configuration, model and image. -/
theorem C2_amended_accepts_witness :
    Upscale.initValidation
        ⟨true, true, 1/2, 1/5, some AlphaOptions.BG_DIFFERENCE, 3, 3, false⟩ =
      Except.ok ⟨true, true, 1/2, 1/5, some AlphaOptions.BG_DIFFERENCE, 3, 3, false⟩ ∧
    Upscale.upscale ⟨true, true, 1/2, 1/5, some AlphaOptions.BG_DIFFERENCE, 3, 3, false⟩
        constHalfModel 255 rgba255 =
      Upscale.upscale ⟨true, false, 1/2, 1/5, some AlphaOptions.BG_DIFFERENCE, 3, 3, false⟩
        constHalfModel 255 rgba255 :=
  C2_amended_accepts _ constHalfModel 255 rgba255 rfl rfl

/-! ### C6: pad and crop are exact inverses at scale 1 -/

/-- For an in-range coordinate every extrapolating border mode is the
identity (OpenCV `borderInterpolate` returns `p` itself when
`0 ≤ p < len`). -/
theorem borderIndex_of_lt (bt : BorderType) (hbt : bt ≠ BorderType.CONSTANT)
    (i len : Nat) (h : i < len) : borderIndex (i : Int) len bt = (i : Int) := by
  cases bt with
  | WRAP =>
      simp only [borderIndex]
      exact Int.emod_eq_of_lt (Int.natCast_nonneg i) (by exact_mod_cast h)
  | REFLECT_101 =>
      simp only [borderIndex]
      by_cases h1 : len = 1
      · subst h1
        rw [if_pos rfl]
        omega
      · rw [if_neg h1]
        have hm : (0 : Int) < 2 * ((len : Int) - 1) := by
          have : 2 ≤ len := by omega
          have : (2 : Int) ≤ (len : Int) := by exact_mod_cast this
          linarith
        have hq : (i : Int) % (2 * ((len : Int) - 1)) = (i : Int) := by
          apply Int.emod_eq_of_lt (Int.natCast_nonneg i)
          have h2 : 2 ≤ len := by omega
          have hi : (i : Int) < (len : Int) := by exact_mod_cast h
          have h2' : (2 : Int) ≤ (len : Int) := by exact_mod_cast h2
          linarith
        simp only [hq]
        rw [if_pos (by exact_mod_cast h)]
  | REPLICATE =>
      simp only [borderIndex]
      have hi : (0 : Int) ≤ (i : Int) := Int.natCast_nonneg i
      have hle : (i : Int) ≤ (len : Int) - 1 := by
        have : (i : Int) < (len : Int) := by exact_mod_cast h
        linarith
      rw [min_eq_left hle, max_eq_right hi]
  | CONSTANT => exact absurd rfl hbt

/-- C6. For every image and every seamless mode, cropping the 16-pixel
margin at scale 1 from the padded image gives back the original image:
same dimensions and the same sample at every in-range pixel. -/
theorem C6_pad_crop_inverse (img : Img) (mode : SeamlessOptions) :
    (Upscale.crop_seamless (padSeamless mode img) 1).h = img.h ∧
    (Upscale.crop_seamless (padSeamless mode img) 1).w = img.w ∧
    (Upscale.crop_seamless (padSeamless mode img) 1).c = img.c ∧
    ∀ i j ch, i < img.h → j < img.w →
      (Upscale.crop_seamless (padSeamless mode img) 1).pix i j ch =
        img.pix i j ch := by
  have key : ∀ (bt : BorderType),
      (Upscale.crop_seamless (copyMakeBorder img 16 bt 0) 1).h = img.h ∧
      (Upscale.crop_seamless (copyMakeBorder img 16 bt 0) 1).w = img.w ∧
      (Upscale.crop_seamless (copyMakeBorder img 16 bt 0) 1).c = img.c ∧
      ∀ i j ch, i < img.h → j < img.w →
        (Upscale.crop_seamless (copyMakeBorder img 16 bt 0) 1).pix i j ch =
          img.pix i j ch := by
    intro bt
    refine ⟨by simp [Upscale.crop_seamless, copyMakeBorder],
            by simp [Upscale.crop_seamless, copyMakeBorder],
            rfl, ?_⟩
    intro i j ch hi hj
    show (copyMakeBorder img 16 bt 0).pix (16 * 1 + i) (16 * 1 + j) ch = img.pix i j ch
    have hci : ((16 * 1 + i : Nat) : Int) - ((16 : Nat) : Int) = (i : Int) := by
      push_cast; ring
    have hcj : ((16 * 1 + j : Nat) : Int) - ((16 : Nat) : Int) = (j : Int) := by
      push_cast; ring
    cases bt with
    | CONSTANT =>
        simp only [copyMakeBorder]
        rw [if_pos (by omega)]
        congr 1 <;> omega
    | WRAP =>
        simp only [copyMakeBorder, hci, hcj]
        rw [borderIndex_of_lt BorderType.WRAP (by simp) i img.h hi,
            borderIndex_of_lt BorderType.WRAP (by simp) j img.w hj]
        simp
    | REFLECT_101 =>
        simp only [copyMakeBorder, hci, hcj]
        rw [borderIndex_of_lt BorderType.REFLECT_101 (by simp) i img.h hi,
            borderIndex_of_lt BorderType.REFLECT_101 (by simp) j img.w hj]
        simp
    | REPLICATE =>
        simp only [copyMakeBorder, hci, hcj]
        rw [borderIndex_of_lt BorderType.REPLICATE (by simp) i img.h hi,
            borderIndex_of_lt BorderType.REPLICATE (by simp) j img.w hj]
        simp
  cases mode with
  | TILE => exact key BorderType.WRAP
  | MIRROR => exact key BorderType.REFLECT_101
  | REPLICATE => exact key BorderType.REPLICATE
  | ALPHA_PAD => exact key BorderType.CONSTANT

/-- C6 witness: the inverse law evaluated on the concrete 2×2 image in
tile mode at pixel (0,1), channel 2. -/
theorem C6_pad_crop_inverse_witness :
    (Upscale.crop_seamless (padSeamless SeamlessOptions.TILE rgbGrid) 1).pix 0 1 2 =
      rgbGrid.pix 0 1 2 :=
  (C6_pad_crop_inverse rgbGrid SeamlessOptions.TILE).2.2.2 0 1 2
    (by norm_num [rgbGrid]) (by norm_num [rgbGrid])

/-! ### Shared lemmas about the 4-channel / 3-in / 3-out alpha path -/

/-- On the 4-channel/3-in/3-out path, each output sample of `upscale` is
the strategy result, optionally quantized, rescaled to `[0,255]` and
rounded. -/
theorem upscale_alpha_pix (cfg : UpscaleConfig) (model : Img → Img)
    (dmax : ℚ) (img : Img) (i j ch : Nat)
    (hc : img.c = 4) (hin : cfg.last_in_nc = 3) (hout : cfg.last_out_nc = 3) :
    (Upscale.upscale cfg model dmax img).1.pix i j ch =
      npRound ((quantizeAlphaStep cfg.binary_alpha cfg.ternary_alpha
        cfg.alpha_threshold cfg.alpha_boundary_offset
        (alphaStrategy cfg.alpha_mode model (normalizeImg dmax img))).pix i j ch * 255) := by
  have hcond : (normalizeImg dmax img).c = 4 ∧ cfg.last_in_nc = 3 ∧
      cfg.last_out_nc = 3 := ⟨hc, hin, hout⟩
  simp only [Upscale.upscale]
  rw [if_pos hcond]
  rfl

/-- With `binary_alpha` set the quantization step thresholds the alpha
sample with OpenCV's strict THRESH_BINARY comparison, whatever the
ternary flag. -/
theorem quantize_pix_alpha_binary (ternary : Bool) (t o : ℚ) (out : Img)
    (i j : Nat) :
    (quantizeAlphaStep true ternary t o out).pix i j 3 =
      cv2threshBinary t 1 (out.pix i j 3) := by
  simp [quantizeAlphaStep, setAlphaChannel]

/-- With only `ternary_alpha` set the quantization step applies the
three-way `np.where` classification to the alpha sample. -/
theorem quantize_pix_alpha_ternary (t o : ℚ) (out : Img) (i j : Nat) :
    (quantizeAlphaStep false true t o out).pix i j 3 =
      (if out.pix i j 3 < t - o then 0
       else if out.pix i j 3 ≤ t + o then 1/2 else 1) := by
  simp [quantizeAlphaStep, setAlphaChannel]

/-- The quantization step never touches a channel other than 3. -/
theorem quantize_pix_color (binary ternary : Bool) (t o : ℚ) (out : Img)
    (i j ch : Nat) (hch : ch ≠ 3) :
    (quantizeAlphaStep binary ternary t o out).pix i j ch = out.pix i j ch := by
  unfold quantizeAlphaStep setAlphaChannel
  by_cases hb : binary <;> by_cases ht : ternary <;> simp [hb, ht, hch]

/-- With neither quantization flag the quantization step is the identity. -/
theorem quantize_pix_none (t o : ℚ) (out : Img) (i j ch : Nat) :
    (quantizeAlphaStep false false t o out).pix i j ch = out.pix i j ch := by
  simp [quantizeAlphaStep]

/-- The alpha sample the selected strategy produced at pixel `(i, j)` —
`output[:, :, 3]` at upscale.py lines 321/326, the value the optional
quantization reads. -/
def strategyAlphaPix (cfg : UpscaleConfig) (model : Img → Img) (dmax : ℚ)
    (img : Img) (i j : Nat) : ℚ :=
  (alphaStrategy cfg.alpha_mode model (normalizeImg dmax img)).pix i j 3

/-! ### C3: ternary alpha classification -/

/-- C3. With ternary alpha enabled and binary alpha disabled, on the
4-channel/3-in/3-out path, the strategy's alpha sample `a` is classified
as 0 when `a < threshold - offset`, as 1 (255 after rescaling) when
`a > threshold + offset`, and as 0.5 (127.5, rounded to 128) otherwise;
in particular `a = threshold` and `a = threshold + offset` both land in
the 0.5 band. -/
theorem C3_ternary_classification (cfg : UpscaleConfig) (model : Img → Img)
    (dmax : ℚ) (img : Img) (i j : Nat)
    (hb : cfg.binary_alpha = false) (ht : cfg.ternary_alpha = true)
    (ho : 0 ≤ cfg.alpha_boundary_offset)
    (hc : img.c = 4) (hin : cfg.last_in_nc = 3) (hout : cfg.last_out_nc = 3) :
    (strategyAlphaPix cfg model dmax img i j <
        cfg.alpha_threshold - cfg.alpha_boundary_offset →
      (Upscale.upscale cfg model dmax img).1.pix i j 3 = 0) ∧
    (cfg.alpha_threshold + cfg.alpha_boundary_offset <
        strategyAlphaPix cfg model dmax img i j →
      (Upscale.upscale cfg model dmax img).1.pix i j 3 = 255) ∧
    (cfg.alpha_threshold - cfg.alpha_boundary_offset ≤
        strategyAlphaPix cfg model dmax img i j →
      strategyAlphaPix cfg model dmax img i j ≤
        cfg.alpha_threshold + cfg.alpha_boundary_offset →
      (Upscale.upscale cfg model dmax img).1.pix i j 3 = 128) ∧
    (strategyAlphaPix cfg model dmax img i j = cfg.alpha_threshold →
      (Upscale.upscale cfg model dmax img).1.pix i j 3 = 128) ∧
    (strategyAlphaPix cfg model dmax img i j =
        cfg.alpha_threshold + cfg.alpha_boundary_offset →
      (Upscale.upscale cfg model dmax img).1.pix i j 3 = 128) := by
  have hpix := upscale_alpha_pix cfg model dmax img i j 3 hc hin hout
  rw [hb, ht, quantize_pix_alpha_ternary] at hpix
  have ha : (alphaStrategy cfg.alpha_mode model (normalizeImg dmax img)).pix i j 3 =
      strategyAlphaPix cfg model dmax img i j := rfl
  rw [ha] at hpix
  refine ⟨?_, ?_, ?_, ?_, ?_⟩
  · intro h
    rw [hpix, if_pos h]
    norm_num [npRound_zero]
  · intro h
    rw [hpix, if_neg (by linarith), if_neg (by linarith)]
    norm_num [npRound_255]
  · intro h1 h2
    rw [hpix, if_neg (by linarith), if_pos h2]
    exact npRound_half255
  · intro h
    rw [hpix, if_neg (by rw [h]; linarith), if_pos (by rw [h]; linarith)]
    exact npRound_half255
  · intro h
    rw [hpix, if_neg (by rw [h]; linarith), if_pos (by rw [h])]
    exact npRound_half255

/-- C3 witness: with threshold 1/2 and offset 1/5, a strategy alpha of
exactly the threshold (produced by the `separate` strategy and a constant
model) is classified into the half-transparent band: output 128. -/
theorem C3_ternary_classification_witness :
    (Upscale.upscale ⟨false, true, 1/2, 1/5, some AlphaOptions.ALPHA_SEPARATELY, 3, 3, false⟩
        constHalfModel 255 rgba255).1.pix 0 0 3 = 128 := by
  have h := C3_ternary_classification
    ⟨false, true, 1/2, 1/5, some AlphaOptions.ALPHA_SEPARATELY, 3, 3, false⟩
    constHalfModel 255 rgba255 0 0 rfl rfl (by norm_num) rfl rfl rfl
  apply h.2.2.2.1
  show (alphaStrategy (some AlphaOptions.ALPHA_SEPARATELY) constHalfModel
      (normalizeImg 255 rgba255)).pix 0 0 3 = 1/2
  simp [alphaStrategy, process, swizzle, clampImg01, clamp01, merge3, merge4,
    plane, normalizeImg, rgba255, constHalfModel, truncateChannels]
  norm_num

/-! ### C4: binary alpha thresholding -/

/-- C4 counterexample. With threshold 1/2, a strategy alpha of exactly
the threshold (the `separate` strategy with a constant-1/2 model yields
alpha 1/2) is mapped by the binary quantization to 0, not to the claimed
maximum: `cv2.threshold(..., THRESH_BINARY)` compares strictly
(`src > thresh`), so a value exactly at the threshold falls in the else
branch. -/
theorem C4_counterexample :
    strategyAlphaPix ⟨true, false, 1/2, 1/5, some AlphaOptions.ALPHA_SEPARATELY, 3, 3, false⟩
        constHalfModel 255 rgba255 0 0 = 1/2 ∧
    (Upscale.upscale ⟨true, false, 1/2, 1/5, some AlphaOptions.ALPHA_SEPARATELY, 3, 3, false⟩
        constHalfModel 255 rgba255).1.pix 0 0 3 = 0 ∧
    (Upscale.upscale ⟨true, false, 1/2, 1/5, some AlphaOptions.ALPHA_SEPARATELY, 3, 3, false⟩
        constHalfModel 255 rgba255).1.pix 0 0 3 ≠ 255 := by
  have ha : strategyAlphaPix ⟨true, false, 1/2, 1/5, some AlphaOptions.ALPHA_SEPARATELY, 3, 3, false⟩
      constHalfModel 255 rgba255 0 0 = 1/2 := by
    show (alphaStrategy (some AlphaOptions.ALPHA_SEPARATELY) constHalfModel
        (normalizeImg 255 rgba255)).pix 0 0 3 = 1/2
    simp [alphaStrategy, process, swizzle, clampImg01, clamp01, merge3, merge4,
      plane, normalizeImg, rgba255, constHalfModel, truncateChannels]
    norm_num
  have hpix := upscale_alpha_pix
    ⟨true, false, 1/2, 1/5, some AlphaOptions.ALPHA_SEPARATELY, 3, 3, false⟩
    constHalfModel 255 rgba255 0 0 3 rfl rfl rfl
  rw [show (⟨true, false, 1/2, 1/5, some AlphaOptions.ALPHA_SEPARATELY, 3, 3, false⟩ :
      UpscaleConfig).binary_alpha = true from rfl, quantize_pix_alpha_binary] at hpix
  have hv : (Upscale.upscale
      ⟨true, false, 1/2, 1/5, some AlphaOptions.ALPHA_SEPARATELY, 3, 3, false⟩
      constHalfModel 255 rgba255).1.pix 0 0 3 = 0 := by
    rw [hpix]
    rw [show (alphaStrategy (some AlphaOptions.ALPHA_SEPARATELY) constHalfModel
        (normalizeImg 255 rgba255)).pix 0 0 3 = 1/2 from ha]
    norm_num [cv2threshBinary, npRound_zero]
  exact ⟨ha, hv, by rw [hv]; norm_num⟩

/-- C4 amended. With binary alpha enabled on the 4-channel/3-in/3-out
path, the strategy's alpha sample `a` is thresholded strictly at
`alpha_threshold`: values at or below the threshold become 0, values
strictly above become 1 (255 after rescaling); in particular a value
exactly equal to the threshold becomes 0. -/
theorem C4_amended_binary_strict (cfg : UpscaleConfig) (model : Img → Img)
    (dmax : ℚ) (img : Img) (i j : Nat)
    (hb : cfg.binary_alpha = true)
    (hc : img.c = 4) (hin : cfg.last_in_nc = 3) (hout : cfg.last_out_nc = 3) :
    (strategyAlphaPix cfg model dmax img i j ≤ cfg.alpha_threshold →
      (Upscale.upscale cfg model dmax img).1.pix i j 3 = 0) ∧
    (cfg.alpha_threshold < strategyAlphaPix cfg model dmax img i j →
      (Upscale.upscale cfg model dmax img).1.pix i j 3 = 255) ∧
    (strategyAlphaPix cfg model dmax img i j = cfg.alpha_threshold →
      (Upscale.upscale cfg model dmax img).1.pix i j 3 = 0) := by
  have hpix := upscale_alpha_pix cfg model dmax img i j 3 hc hin hout
  rw [hb, quantize_pix_alpha_binary] at hpix
  have ha : (alphaStrategy cfg.alpha_mode model (normalizeImg dmax img)).pix i j 3 =
      strategyAlphaPix cfg model dmax img i j := rfl
  rw [ha] at hpix
  refine ⟨?_, ?_, ?_⟩
  · intro h
    rw [hpix]
    unfold cv2threshBinary
    rw [if_neg (by linarith)]
    norm_num [npRound_zero]
  · intro h
    rw [hpix]
    unfold cv2threshBinary
    rw [if_pos h]
    norm_num [npRound_255]
  · intro h
    rw [hpix]
    unfold cv2threshBinary
    rw [if_neg (by rw [h]; linarith)]
    norm_num [npRound_zero]

/-- C4 witness: the amended theorem applied at the concrete configuration
of the counterexample input, taking the exactly-at-threshold branch. -/
theorem C4_amended_binary_strict_witness :
    (Upscale.upscale ⟨true, false, 1/2, 1/5, some AlphaOptions.ALPHA_SEPARATELY, 3, 3, false⟩
        constHalfModel 255 (⟨1, 1, 4, fun _ _ _ => 128⟩ : Img)).1.pix 0 0 3 = 0 := by
  have h := C4_amended_binary_strict
    ⟨true, false, 1/2, 1/5, some AlphaOptions.ALPHA_SEPARATELY, 3, 3, false⟩
    constHalfModel 255 ⟨1, 1, 4, fun _ _ _ => 128⟩ 0 0 rfl rfl rfl rfl
  apply h.2.2
  show (alphaStrategy (some AlphaOptions.ALPHA_SEPARATELY) constHalfModel
      (normalizeImg 255 ⟨1, 1, 4, fun _ _ _ => 128⟩)).pix 0 0 3 = 1/2
  simp [alphaStrategy, process, swizzle, clampImg01, clamp01, merge3, merge4,
    plane, normalizeImg, constHalfModel, truncateChannels]
  norm_num

/-! ### C7: alpha mode none yields a fully opaque alpha channel -/

/-- C7. For alpha mode `none` (the enum value or an unset mode — both
reach the `else` arm at upscale.py line 315) on the 4-channel/3-in/3-out
path with no quantization requested, the strategy attaches a constant-1
alpha channel (`cv2.cvtColor(..., COLOR_BGR2BGRA)`), so every output
alpha sample is 255 after rescaling, for every input image and model. -/
theorem C7_alpha_none_full (cfg : UpscaleConfig) (model : Img → Img)
    (dmax : ℚ) (img : Img) (i j : Nat)
    (hmode : cfg.alpha_mode = some AlphaOptions.NO_ALPHA ∨ cfg.alpha_mode = none)
    (hb : cfg.binary_alpha = false) (ht : cfg.ternary_alpha = false)
    (hc : img.c = 4) (hin : cfg.last_in_nc = 3) (hout : cfg.last_out_nc = 3) :
    strategyAlphaPix cfg model dmax img i j = 1 ∧
    (Upscale.upscale cfg model dmax img).1.pix i j 3 = 255 := by
  have hstrat : strategyAlphaPix cfg model dmax img i j = 1 := by
    unfold strategyAlphaPix
    rcases hmode with hm | hm <;> rw [hm] <;> simp [alphaStrategy, bgr2bgra]
  refine ⟨hstrat, ?_⟩
  have hpix := upscale_alpha_pix cfg model dmax img i j 3 hc hin hout
  rw [hb, ht, quantize_pix_none] at hpix
  have ha : (alphaStrategy cfg.alpha_mode model (normalizeImg dmax img)).pix i j 3 =
      strategyAlphaPix cfg model dmax img i j := rfl
  rw [hpix, ha, hstrat]
  norm_num [npRound_255]

/-- C7 witness: the theorem applied at a concrete configuration, model
and image. -/
theorem C7_alpha_none_full_witness :
    (Upscale.upscale ⟨false, false, 1/2, 1/5, some AlphaOptions.NO_ALPHA, 3, 3, false⟩
        constHalfModel 255 rgba255).1.pix 0 0 3 = 255 :=
  (C7_alpha_none_full ⟨false, false, 1/2, 1/5, some AlphaOptions.NO_ALPHA, 3, 3, false⟩
    constHalfModel 255 rgba255 0 0 (Or.inl rfl) rfl rfl rfl rfl rfl).2

/-! ### C9: binary quantization takes precedence over ternary -/

/-- C9. When both `binary_alpha` and `ternary_alpha` are set, the
`if binary: ... elif ternary: ...` chain (upscale.py lines 320-338)
applies the binary thresholding and silently ignores the ternary one:
the run is identical to a run with only `binary_alpha` set, and every
output alpha sample is the strictly-thresholded strategy alpha. -/
theorem C9_binary_precedence (cfg : UpscaleConfig) (model : Img → Img)
    (dmax : ℚ) (img : Img)
    (hb : cfg.binary_alpha = true) (ht : cfg.ternary_alpha = true)
    (hc : img.c = 4) (hin : cfg.last_in_nc = 3) (hout : cfg.last_out_nc = 3) :
    Upscale.upscale cfg model dmax img =
      Upscale.upscale { cfg with ternary_alpha := false } model dmax img ∧
    ∀ i j, (Upscale.upscale cfg model dmax img).1.pix i j 3 =
      npRound (cv2threshBinary cfg.alpha_threshold 1
        (strategyAlphaPix cfg model dmax img i j) * 255) := by
  constructor
  · obtain ⟨b, t, th, o, am, inc, onc, cm⟩ := cfg
    simp only at hb ht
    subst hb
    subst ht
    rfl
  · intro i j
    have hpix := upscale_alpha_pix cfg model dmax img i j 3 hc hin hout
    rw [hb, quantize_pix_alpha_binary] at hpix
    rw [hpix]
    rfl

/-- C9 witness: the precedence equation applied at a concrete both-flags
configuration, model and image. -/
theorem C9_binary_precedence_witness :
    Upscale.upscale ⟨true, true, 1/2, 1/5, some AlphaOptions.NO_ALPHA, 3, 3, false⟩
        constHalfModel 255 rgba255 =
      Upscale.upscale ⟨true, false, 1/2, 1/5, some AlphaOptions.NO_ALPHA, 3, 3, false⟩
        constHalfModel 255 rgba255 :=
  (C9_binary_precedence ⟨true, true, 1/2, 1/5, some AlphaOptions.NO_ALPHA, 3, 3, false⟩
    constHalfModel 255 rgba255 rfl rfl rfl rfl rfl).1

/-! ### C5 and C10: the bg_difference strategy -/

/-- The alpha sample the `bg_difference` strategy produces: 1 minus the
channel mean of (white-composite result − black-composite result),
clipped to `[0,1]`. -/
theorem bg_strategy_pix_alpha (model : Img → Img) (img : Img) (i j : Nat)
    (hm3 : ∀ x, (model x).c = 3) :
    (alphaStrategy (some AlphaOptions.BG_DIFFERENCE) model img).pix i j 3 =
      clamp01 (1 -
        (((process model (whiteComposite img)).pix i j 0 -
            (process model (blackComposite img)).pix i j 0) +
         ((process model (whiteComposite img)).pix i j 1 -
            (process model (blackComposite img)).pix i j 1) +
         ((process model (whiteComposite img)).pix i j 2 -
            (process model (blackComposite img)).pix i j 2)) / 3) := by
  have h1 : (process model (blackComposite img)).c = 3 := by
    rw [process_c]; exact hm3 _
  have h2 : (process model (whiteComposite img)).c = 3 := by
    rw [process_c]; exact hm3 _
  simp only [alphaStrategy, clampImg01, dstackAlpha]
  rw [h1]
  norm_num
  congr 1
  have hsub : (imgSub (process model (whiteComposite img))
      (process model (blackComposite img))).c = 3 := by
    simp only [imgSub]
    exact h2
  simp only [meanChannels, hsub]
  rw [show List.range 3 = [0, 1, 2] from rfl]
  simp only [List.map_cons, List.map_nil, List.sum_cons, List.sum_nil, imgSub]
  ring

/-- A color sample the `bg_difference` strategy produces: the
black-composite run's result, clipped to `[0,1]`; the white run does not
appear. -/
theorem bg_strategy_pix_color (model : Img → Img) (img : Img) (i j ch : Nat)
    (hch : ch < 3) (hm3 : ∀ x, (model x).c = 3) :
    (alphaStrategy (some AlphaOptions.BG_DIFFERENCE) model img).pix i j ch =
      clamp01 ((process model (blackComposite img)).pix i j ch) := by
  have h1 : (process model (blackComposite img)).c = 3 := by
    rw [process_c]; exact hm3 _
  simp only [alphaStrategy, clampImg01, dstackAlpha]
  rw [h1, if_pos hch]

/-- C5. For alpha mode `bg_difference` on the 4-channel/3-in/3-out path
(no quantization requested), the two model runs are on the black
composite `rgb * alpha` and the white composite `(rgb - 1) * alpha + 1`,
the output alpha at each pixel is 1 minus the mean over the three
channels of (white result − black result) clipped to `[0,1]`, and each
color sample is the black-composite result clipped to `[0,1]` — all then
rescaled to `[0,255]` and rounded. -/
theorem C5_bg_difference (cfg : UpscaleConfig) (model : Img → Img)
    (dmax : ℚ) (img : Img) (i j : Nat)
    (hmode : cfg.alpha_mode = some AlphaOptions.BG_DIFFERENCE)
    (hb : cfg.binary_alpha = false) (ht : cfg.ternary_alpha = false)
    (hc : img.c = 4) (hin : cfg.last_in_nc = 3) (hout : cfg.last_out_nc = 3)
    (hm3 : ∀ x, (model x).c = 3) :
    (Upscale.upscale cfg model dmax img).1.pix i j 3 =
      npRound (clamp01 (1 -
        (((process model (whiteComposite (normalizeImg dmax img))).pix i j 0 -
            (process model (blackComposite (normalizeImg dmax img))).pix i j 0) +
         ((process model (whiteComposite (normalizeImg dmax img))).pix i j 1 -
            (process model (blackComposite (normalizeImg dmax img))).pix i j 1) +
         ((process model (whiteComposite (normalizeImg dmax img))).pix i j 2 -
            (process model (blackComposite (normalizeImg dmax img))).pix i j 2)) / 3) * 255) ∧
    ∀ ch, ch < 3 → (Upscale.upscale cfg model dmax img).1.pix i j ch =
      npRound (clamp01
        ((process model (blackComposite (normalizeImg dmax img))).pix i j ch) * 255) := by
  constructor
  · have hpix := upscale_alpha_pix cfg model dmax img i j 3 hc hin hout
    rw [hb, ht, quantize_pix_none, hmode,
        bg_strategy_pix_alpha model (normalizeImg dmax img) i j hm3] at hpix
    exact hpix
  · intro ch hch
    have hpix := upscale_alpha_pix cfg model dmax img i j ch hc hin hout
    rw [hb, ht, quantize_pix_none, hmode,
        bg_strategy_pix_color model (normalizeImg dmax img) i j ch hch hm3] at hpix
    exact hpix

/-- C5 witness: at a concrete configuration, constant model and fully
opaque white image, both runs agree, so the derived alpha is
`clamp01 (1 - 0) = 1` and the output alpha sample is 255. -/
theorem C5_bg_difference_witness :
    (Upscale.upscale ⟨false, false, 1/2, 1/5, some AlphaOptions.BG_DIFFERENCE, 3, 3, false⟩
        constHalfModel 255 rgba255).1.pix 0 0 3 = 255 := by
  have h := C5_bg_difference
    ⟨false, false, 1/2, 1/5, some AlphaOptions.BG_DIFFERENCE, 3, 3, false⟩
    constHalfModel 255 rgba255 0 0 rfl rfl rfl rfl rfl rfl (fun _ => rfl)
  rw [h.1]
  simp [process, swizzle, clampImg01, clamp01, blackComposite, whiteComposite,
    normalizeImg, rgba255, constHalfModel]
  norm_num [npRound_255]

/-- C10. For alpha mode `bg_difference`, whatever the quantization flags,
each color sample of the output is exactly the model's result on the
black composite `rgb * alpha`, clipped to `[0,1]` and rescaled; the
white-composite run does not occur in the color channels (the equation's
right-hand side mentions only the black run). -/
theorem C10_rgb_from_black (cfg : UpscaleConfig) (model : Img → Img)
    (dmax : ℚ) (img : Img) (i j ch : Nat)
    (hmode : cfg.alpha_mode = some AlphaOptions.BG_DIFFERENCE)
    (hch : ch < 3)
    (hc : img.c = 4) (hin : cfg.last_in_nc = 3) (hout : cfg.last_out_nc = 3)
    (hm3 : ∀ x, (model x).c = 3) :
    (Upscale.upscale cfg model dmax img).1.pix i j ch =
      npRound (clamp01
        ((process model (blackComposite (normalizeImg dmax img))).pix i j ch) * 255) := by
  have hpix := upscale_alpha_pix cfg model dmax img i j ch hc hin hout
  rw [quantize_pix_color cfg.binary_alpha cfg.ternary_alpha cfg.alpha_threshold
        cfg.alpha_boundary_offset _ i j ch (by omega), hmode,
      bg_strategy_pix_color model (normalizeImg dmax img) i j ch hch hm3] at hpix
  exact hpix

/-- C10 witness: at the concrete configuration (with binary quantization
even enabled), the red sample is the black-run value 1/2 rescaled to
128. -/
theorem C10_rgb_from_black_witness :
    (Upscale.upscale ⟨true, false, 1/2, 1/5, some AlphaOptions.BG_DIFFERENCE, 3, 3, false⟩
        constHalfModel 255 rgba255).1.pix 0 0 0 = 128 := by
  have h := C10_rgb_from_black
    ⟨true, false, 1/2, 1/5, some AlphaOptions.BG_DIFFERENCE, 3, 3, false⟩
    constHalfModel 255 rgba255 0 0 0 rfl (by norm_num) rfl rfl rfl (fun _ => rfl)
  rw [h]
  simp [process, swizzle, clampImg01, clamp01, blackComposite,
    normalizeImg, rgba255, constHalfModel]
  norm_num
  rw [show (255 : ℚ) / 2 = (1/2 : ℚ) * 255 by norm_num]
  exact npRound_half255

/-! ### C8: truncation of extra channels -/

/-- C8. When the (normalized) image has more channels than the model's
expected input count and the 4-channel/3-in/3-out alpha path does not
apply, `upscale` passes only the first `last_in_nc` channels to the model
(`img = img[:, :, :self.last_in_nc]`, upscale.py line 346), emits the
warning `Truncating image channels` (line 345), and completes, returning
the rescaled model result on the truncated image. -/
theorem C8_truncation (cfg : UpscaleConfig) (model : Img → Img)
    (dmax : ℚ) (img : Img)
    (himg : img.c > cfg.last_in_nc)
    (hnot : ¬(img.c = 4 ∧ cfg.last_in_nc = 3 ∧ cfg.last_out_nc = 3)) :
    Upscale.upscale cfg model dmax img =
      (rescale255 (process model
        (truncateChannels cfg.last_in_nc (normalizeImg dmax img))),
       ["Truncating image channels"]) := by
  have hnot2 : ¬((normalizeImg dmax img).c = 4 ∧ cfg.last_in_nc = 3 ∧
      cfg.last_out_nc = 3) := hnot
  have himg2 : (normalizeImg dmax img).c > cfg.last_in_nc := himg
  simp only [Upscale.upscale]
  rw [if_neg hnot2, if_pos himg2]

/-- C8 witness: a concrete 5-channel image into a model expecting 3
channels is truncated, warned about, and processed. -/
theorem C8_truncation_witness :
    Upscale.upscale ⟨false, false, 1/2, 1/5, none, 3, 4, false⟩
        constHalfModel 255 (⟨1, 1, 5, fun _ _ _ => 255⟩ : Img) =
      (rescale255 (process constHalfModel
        (truncateChannels 3 (normalizeImg 255 (⟨1, 1, 5, fun _ _ _ => 255⟩ : Img)))),
       ["Truncating image channels"]) :=
  C8_truncation ⟨false, false, 1/2, 1/5, none, 3, 4, false⟩ constHalfModel 255
    ⟨1, 1, 5, fun _ _ _ => 255⟩ (by norm_num) (by norm_num)
